import Mathlib

/-
Verification of px4_params_diff.py: a shallow embedding of its parser,
comparator, exporter and orchestration, with proofs of the specified
properties.  Files are modelled as lists of lines; Python dicts are
modelled as association lists with Python's update-or-append assignment
and first-match lookup (a dict built by assignments has at most one
binding per key, so first match is the binding).
-/

namespace PX4ParamsDiff

/-- Whitespace characters recognised by Python `str.split()` and
`str.strip()` (the ASCII ones). -/
def pyWhitespace (c : Char) : Bool :=
  c = ' ' || c = '\t' || c = '\n' || c = '\r' || c = '\x0b' || c = '\x0c'

/-- Auxiliary scanner for `pySplit`: accumulates the current run of
non-whitespace characters (reversed) and emits it when a whitespace
character or the end of the line is reached. -/
def pySplitAux : List Char → List Char → List String
  | [], [] => []
  | [], acc => [String.mk acc.reverse]
  | c :: cs, acc =>
    if pyWhitespace c then
      match acc with
      | [] => pySplitAux cs []
      | _ => String.mk acc.reverse :: pySplitAux cs []
    else pySplitAux cs (c :: acc)

/-- Python `line.split()` with no separator argument: the maximal runs of
non-whitespace characters, in order; no empty tokens. -/
def pySplit (line : String) : List String :=
  pySplitAux line.toList []

/-- Python `line.startswith("#")`: the first character of the line is `#`. -/
def startswithHash (line : String) : Bool :=
  match line.toList with
  | c :: _ => c = '#'
  | [] => false

/-- Python `not line.strip()`: the line is empty or consists only of
whitespace characters. -/
def stripEmpty (line : String) : Bool :=
  line.toList.all pyWhitespace

/-- A ParameterSet: a Python dict from parameter name to value, as an
association list. -/
abbrev ParamDict := List (String × String)

/-- Python dict assignment `params[name] = value`: overwrite the existing
binding in place if the key is present, otherwise append a new binding. -/
def dictInsert (d : ParamDict) (k v : String) : ParamDict :=
  if d.any (fun p => decide (p.1 = k)) then
    d.map (fun p => if p.1 = k then (k, v) else p)
  else d ++ [(k, v)]

/-- Python `params.get(key, default)`: the value of the first binding of
`k`, or `dflt` when `k` is absent. -/
def dget (d : ParamDict) (k dflt : String) : String :=
  match d.find? (fun p => decide (p.1 = k)) with
  | some p => p.2
  | none => dflt

/-- Python `set(params.keys())` as a duplicate-free list of keys. -/
def dkeys (d : ParamDict) : List String :=
  (d.map Prod.fst).dedup

/-- One iteration of the loop body of `parse_params`: skip the line when it
starts with `#` or strips to nothing, skip it when it does not split into
exactly 5 tokens, otherwise bind the 3rd token to the 4th. -/
def parseLine (params : ParamDict) (line : String) : ParamDict :=
  if startswithHash line || stripEmpty line then params
  else
    match pySplit line with
    | [_, _, name, value, _] => dictInsert params name value
    | _ => params

/-- The function `parse_params`, over a file given as its list of lines. -/
def parse_params (lines : List String) : ParamDict :=
  lines.foldl parseLine []

/-- The (name, value) pair a single line contributes, if any: the same
conditions as `parseLine`, returning the pair instead of inserting it. -/
def lineEntry (line : String) : Option (String × String) :=
  if startswithHash line || stripEmpty line then none
  else
    match pySplit line with
    | [_, _, name, value, _] => some (name, value)
    | _ => none

/-- All (name, value) pairs contributed by the lines of a file, in order. -/
def contributedPairs (lines : List String) : List (String × String) :=
  lines.filterMap lineEntry

/-- The candidate key set of `compare_params`: intersection of the key sets
when `common_only`, union otherwise. -/
def keysToCompare (params1 params2 : ParamDict) (common_only : Bool) : List String :=
  if common_only then
    (dkeys params1).filter (fun k => decide (k ∈ dkeys params2))
  else
    (dkeys params1 ++ dkeys params2).dedup

/-- The function `compare_params`: for each candidate key, resolve the two
values with sentinel "N/A" for absence and record the triple when they are
not equal strings. -/
def compare_params (params1 params2 : ParamDict) (common_only : Bool) :
    List (String × String × String) :=
  (keysToCompare params1 params2 common_only).filterMap (fun key =>
    let value1 := dget params1 key "N/A"
    let value2 := dget params2 key "N/A"
    if value1 ≠ value2 then some (key, value1, value2) else none)

/-- The rows `export_to_csv` writes: the header row, then one row per
difference record. -/
def export_to_csv (differences : List (String × String × String)) :
    List (List String) :=
  ["PARAMETER", "FILE1_VALUE", "FILE2_VALUE"] ::
    differences.map (fun r => [r.1, r.2.1, r.2.2])

/-- The observable outcome of `main`: the rows written to the output file
(none when the file is neither created nor overwritten) and the message
printed to stdout. -/
structure MainResult where
  outputFile : Option (List (List String))
  stdout : String
  deriving DecidableEq, Repr

/-- The function `main`, over the two input files given as lists of lines:
parse both, compare, and export exactly when the difference list is
non-empty. -/
def main (file1 file2 : List String) (output_file : String) (common_only : Bool) :
    MainResult :=
  let params1 := parse_params file1
  let params2 := parse_params file2
  let differences := compare_params params1 params2 common_only
  if differences ≠ [] then
    { outputFile := some (export_to_csv differences),
      stdout := "Differences exported to " ++ output_file }
  else
    { outputFile := none, stdout := "No differences found." }

/-- The comment notion of the spec (not of the code): the first
non-whitespace character of the line is `#`. -/
def firstNonWhitespaceIsHash (line : String) : Bool :=
  match line.toList.dropWhile pyWhitespace with
  | c :: _ => c = '#'
  | [] => false

lemma dget_dictInsert_self (d : ParamDict) (k v dflt : String) :
    dget (dictInsert d k v) k dflt = v := by
  unfold dictInsert dget
  by_cases h : d.any (fun p => decide (p.1 = k)) = true
  · rw [if_pos h, List.find?_map]
    have hfun : ((fun p : String × String => decide (p.1 = k)) ∘
        (fun p : String × String => if p.1 = k then (k, v) else p))
        = fun p : String × String => decide (p.1 = k) := by
      funext p
      by_cases hp : p.1 = k <;> simp [hp]
    rw [hfun]
    obtain ⟨q, hq, hqk⟩ := List.any_eq_true.1 h
    have hs : (d.find? (fun p : String × String => decide (p.1 = k))).isSome :=
      List.find?_isSome.2 ⟨q, hq, hqk⟩
    obtain ⟨r, hr⟩ := Option.isSome_iff_exists.1 hs
    have hrk : r.1 = k := by simpa using List.find?_some hr
    rw [hr]
    simp [hrk]
  · rw [if_neg h, List.find?_append]
    have hnone : d.find? (fun p : String × String => decide (p.1 = k)) = none := by
      rw [List.find?_eq_none]
      intro x hx hpx
      exact h (List.any_eq_true.2 ⟨x, hx, hpx⟩)
    rw [hnone]
    simp [List.find?]

lemma dget_dictInsert_ne (d : ParamDict) (k v k2 dflt : String) (hne : k2 ≠ k) :
    dget (dictInsert d k v) k2 dflt = dget d k2 dflt := by
  unfold dictInsert dget
  by_cases h : d.any (fun p => decide (p.1 = k)) = true
  · rw [if_pos h, List.find?_map]
    have hfun : ((fun p : String × String => decide (p.1 = k2)) ∘
        (fun p : String × String => if p.1 = k then (k, v) else p))
        = fun p : String × String => decide (p.1 = k2) := by
      funext p
      by_cases hp : p.1 = k <;> simp [hp]
    rw [hfun]
    cases hf : d.find? (fun p : String × String => decide (p.1 = k2)) with
    | none => rfl
    | some q =>
      have hqk : q.1 = k2 := by simpa using List.find?_some hf
      have hgq : (if q.1 = k then (k, v) else q) = q := by
        rw [if_neg]
        rw [hqk]
        exact hne
      simp [hgq]
  · rw [if_neg h, List.find?_append]
    have hlast : [(k, v)].find? (fun p : String × String => decide (p.1 = k2)) = none := by
      rw [List.find?_eq_none]
      intro x hx
      rw [List.mem_singleton] at hx
      subst hx
      simp only [decide_eq_true_eq]
      exact fun hkk => hne hkk.symm
    rw [hlast]
    cases d.find? (fun p : String × String => decide (p.1 = k2)) <;> rfl

lemma dget_of_mem_dkeys {d : ParamDict} {k : String} (h : k ∈ dkeys d) (s t : String) :
    dget d k s = dget d k t := by
  unfold dkeys at h
  rw [List.mem_dedup, List.mem_map] at h
  obtain ⟨p, hp, hpk⟩ := h
  have hs : (d.find? (fun q : String × String => decide (q.1 = k))).isSome :=
    List.find?_isSome.2 ⟨p, hp, by simp [hpk]⟩
  obtain ⟨r, hr⟩ := Option.isSome_iff_exists.1 hs
  unfold dget
  rw [hr]

lemma mem_keysToCompare {p1 p2 : ParamDict} {co : Bool} {k : String} :
    k ∈ keysToCompare p1 p2 co ↔
      if co then k ∈ dkeys p1 ∧ k ∈ dkeys p2
      else k ∈ dkeys p1 ∨ k ∈ dkeys p2 := by
  unfold keysToCompare
  cases co with
  | true => simp [List.mem_filter]
  | false => simp [List.mem_dedup, List.mem_append]

lemma mem_compare_params {p1 p2 : ParamDict} {co : Bool} {k v1 v2 : String} :
    (k, v1, v2) ∈ compare_params p1 p2 co ↔
      k ∈ keysToCompare p1 p2 co ∧
        v1 = dget p1 k "N/A" ∧ v2 = dget p2 k "N/A" ∧ v1 ≠ v2 := by
  simp only [compare_params, List.mem_filterMap]
  constructor
  · rintro ⟨a, ha, hfa⟩
    split at hfa
    · rename_i hne
      obtain ⟨rfl, rfl, rfl⟩ := by simpa using hfa
      exact ⟨ha, rfl, rfl, hne⟩
    · exact absurd hfa (by simp)
  · rintro ⟨hk, rfl, rfl, hne⟩
    exact ⟨k, hk, by simp [hne]⟩

lemma parseLine_eq_lineEntry (d : ParamDict) (line : String) :
    parseLine d line = match lineEntry line with
      | some nv => dictInsert d nv.1 nv.2
      | none => d := by
  unfold parseLine lineEntry
  split
  · rfl
  · split <;> rfl

lemma foldl_parseLine_eq (lines : List String) (d : ParamDict) :
    lines.foldl parseLine d =
      (lines.filterMap lineEntry).foldl (fun acc nv => dictInsert acc nv.1 nv.2) d := by
  induction lines generalizing d with
  | nil => rfl
  | cons l ls ih =>
    rw [List.foldl_cons, List.filterMap_cons, parseLine_eq_lineEntry]
    cases hle : lineEntry l with
    | none => simp only [hle]; exact ih d
    | some nv => simp only [hle, List.foldl_cons]; exact ih _

lemma dget_foldl_dictInsert (ps : List (String × String)) (d : ParamDict)
    (k dflt : String) :
    dget (ps.foldl (fun acc nv => dictInsert acc nv.1 nv.2) d) k dflt =
      match (ps.filter (fun p => decide (p.1 = k))).getLast? with
      | some p => p.2
      | none => dget d k dflt := by
  induction ps using List.reverseRecOn with
  | nil => rfl
  | append_singleton l a ih =>
    rw [List.foldl_append, List.foldl_cons, List.foldl_nil, List.filter_append]
    by_cases hak : a.1 = k
    · rw [List.filter_cons, if_pos (by simp [hak]), List.filter_nil,
        List.getLast?_concat]
      rw [hak] at *
      exact dget_dictInsert_self _ _ _ _
    · rw [List.filter_cons, if_neg (by simp [hak]), List.filter_nil,
        List.append_nil]
      rw [dget_dictInsert_ne _ _ _ _ _ (fun hk => hak hk.symm)]
      exact ih

lemma dget_parse_params (lines : List String) (k dflt : String) :
    dget (parse_params lines) k dflt =
      match ((contributedPairs lines).filter (fun p => decide (p.1 = k))).getLast? with
      | some p => p.2
      | none => dflt := by
  unfold parse_params contributedPairs
  rw [foldl_parseLine_eq, dget_foldl_dictInsert]
  cases ((lines.filterMap lineEntry).filter (fun p => decide (p.1 = k))).getLast? with
  | none => rfl
  | some p => rfl

lemma mem_keysToCompare_symm {p1 p2 : ParamDict} {co : Bool} {k : String}
    (h : k ∈ keysToCompare p1 p2 co) : k ∈ keysToCompare p2 p1 co := by
  rw [mem_keysToCompare] at h ⊢
  cases co with
  | false =>
    simp only [if_neg Bool.false_ne_true] at h ⊢
    exact h.symm
  | true =>
    simp only [if_pos rfl] at h ⊢
    exact ⟨h.2, h.1⟩

/-- C1 (counterexample): the line " # a NAME VAL x" has `#` as its first
non-whitespace character (after leading whitespace) and splits into exactly
5 tokens, yet `parse_params` does insert the entry ("NAME", "VAL") for it,
because the code only tests `line.startswith("#")` on the raw line. -/
theorem parse_ws_comment_counterexample :
    firstNonWhitespaceIsHash " # a NAME VAL x" = true ∧
      (pySplit " # a NAME VAL x").length = 5 ∧
      parse_params [" # a NAME VAL x"] = [("NAME", "VAL")] := by
  decide

/-- C1 (amended): for every input line whose very first character is `#`,
`parse_params` contributes no entry for that line, even when it splits into
exactly 5 tokens; a line with leading whitespace before the `#` is not
treated as a comment. -/
theorem parse_skips_hash_initial_lines (params : ParamDict) (line : String)
    (h : startswithHash line = true) : parseLine params line = params := by
  simp [parseLine, h]

/-- Witness for the amended C1 at the concrete comment line of the spec. -/
theorem parse_skips_hash_initial_lines_witness :
    parseLine [] "# comment PARAM_C 1 1" = [] :=
  parse_skips_hash_initial_lines [] "# comment PARAM_C 1 1" (by decide)

/-- C2: a DifferenceRecord (k, v1, v2) is in the output of `compare_params`
if and only if k is a candidate key (in both key sets when commonOnly, in
either otherwise), v1 and v2 are the values resolved with sentinel "N/A"
for absence, and they are not identical strings. -/
theorem compare_emits_record_iff (setA setB : ParamDict) (commonOnly : Bool)
    (k v1 v2 : String) :
    (k, v1, v2) ∈ compare_params setA setB commonOnly ↔
      ((if commonOnly then k ∈ dkeys setA ∧ k ∈ dkeys setB
        else k ∈ dkeys setA ∨ k ∈ dkeys setB) ∧
        v1 = dget setA k "N/A" ∧ v2 = dget setB k "N/A" ∧ v1 ≠ v2) := by
  rw [mem_compare_params, mem_keysToCompare]

/-- C3: for every line the parser does not skip as comment or blank, an
entry mapping the 3rd token to the 4th token is inserted exactly when the
line splits into 5 tokens (tokens 1, 2 and 5 are ignored); every line with
a token count other than 5 contributes no entry and raises no error. -/
theorem parse_line_token_extraction (params : ParamDict) (line : String) :
    (startswithHash line = false → stripEmpty line = false →
      ∀ t1 t2 name value t5, pySplit line = [t1, t2, name, value, t5] →
        parseLine params line = dictInsert params name value) ∧
    ((pySplit line).length ≠ 5 → parseLine params line = params) := by
  constructor
  · intro h1 h2 t1 t2 name value t5 hsplit
    unfold parseLine
    rw [if_neg (by simp [h1, h2]), hsplit]
  · intro hlen
    unfold parseLine
    split
    · rfl
    · split
      · rename_i heq
        rw [heq] at hlen
        simp at hlen
      · rfl

/-- C4: when a parameter name occurs on more than one contributing 5-token
data line, the ParameterSet built by `parse_params` maps that name to the
value of the last such line in file order. -/
theorem parse_duplicate_last_wins (lines : List String) (k dflt : String)
    (h : 2 ≤ ((contributedPairs lines).filter (fun p => decide (p.1 = k))).length) :
    ∃ p, ((contributedPairs lines).filter (fun p => decide (p.1 = k))).getLast?
        = some p ∧
      p.1 = k ∧ dget (parse_params lines) k dflt = p.2 := by
  have hne : (contributedPairs lines).filter (fun p => decide (p.1 = k)) ≠ [] := by
    intro hnil
    rw [hnil] at h
    simp at h
  have hs := List.getLast?_isSome.2 hne
  obtain ⟨p, hp⟩ := Option.isSome_iff_exists.1 hs
  have hmem : p ∈ (contributedPairs lines).filter (fun p => decide (p.1 = k)) :=
    List.mem_of_getLast?_eq_some hp
  have hpk : p.1 = k := by simpa using (List.mem_filter.1 hmem).2
  refine ⟨p, hp, hpk, ?_⟩
  rw [dget_parse_params, hp]

/-- Witness for C4 at a concrete two-line file binding NAME twice. -/
theorem parse_duplicate_last_wins_witness :
    ∃ p, ((contributedPairs ["a b NAME 1 x", "a b NAME 2 x"]).filter
        (fun p => decide (p.1 = "NAME"))).getLast? = some p ∧
      p.1 = "NAME" ∧
      dget (parse_params ["a b NAME 1 x", "a b NAME 2 x"]) "NAME" "N/A" = p.2 :=
  parse_duplicate_last_wins ["a b NAME 1 x", "a b NAME 2 x"] "NAME" "N/A" (by decide)

/-- C5: symmetry-inversion law: (k, v1, v2) is a record of
`compare_params A B mode` if and only if (k, v2, v1) is a record of
`compare_params B A mode`. -/
theorem compare_symm_inversion (A B : ParamDict) (mode : Bool) (k v1 v2 : String) :
    (k, v1, v2) ∈ compare_params A B mode ↔ (k, v2, v1) ∈ compare_params B A mode := by
  rw [mem_compare_params, mem_compare_params]
  constructor
  · rintro ⟨hk, h1, h2, hne⟩
    exact ⟨mem_keysToCompare_symm hk, h2, h1, Ne.symm hne⟩
  · rintro ⟨hk, h1, h2, hne⟩
    exact ⟨mem_keysToCompare_symm hk, h2, h1, Ne.symm hne⟩

/-- C6: every parameter name appearing in the common-only report of
`compare_params` also appears in the union-mode report for the same pair
of mappings. -/
theorem commonOnly_names_subset (A B : ParamDict) (k : String)
    (h : ∃ v1 v2, (k, v1, v2) ∈ compare_params A B true) :
    ∃ v1 v2, (k, v1, v2) ∈ compare_params A B false := by
  obtain ⟨v1, v2, hm⟩ := h
  refine ⟨v1, v2, ?_⟩
  rw [mem_compare_params] at hm ⊢
  obtain ⟨hk, h1, h2, hne⟩ := hm
  rw [mem_keysToCompare] at hk
  have hk2 : k ∈ dkeys A ∧ k ∈ dkeys B := by simpa using hk
  refine ⟨?_, h1, h2, hne⟩
  rw [mem_keysToCompare]
  simpa using Or.inl hk2.1

/-- Witness for C6 at mappings that bind K to different values. -/
theorem commonOnly_names_subset_witness :
    ∃ v1 v2, ("K", v1, v2) ∈ compare_params [("K", "1")] [("K", "2")] false :=
  commonOnly_names_subset [("K", "1")] [("K", "2")] "K" ⟨"1", "2", by decide⟩

/-- C7: `main` never writes the output file and prints "No differences
found." when the computed report is empty, and writes exactly the CSV of
the report and prints the export message when it is non-empty. -/
theorem main_export_and_messages (file1 file2 : List String) (output_file : String)
    (common_only : Bool) :
    (compare_params (parse_params file1) (parse_params file2) common_only = [] →
      main file1 file2 output_file common_only
        = { outputFile := none, stdout := "No differences found." }) ∧
    (compare_params (parse_params file1) (parse_params file2) common_only ≠ [] →
      main file1 file2 output_file common_only
        = { outputFile := some (export_to_csv
              (compare_params (parse_params file1) (parse_params file2) common_only)),
            stdout := "Differences exported to " ++ output_file }) := by
  constructor <;> intro h <;> simp [main, h]

/-- C8: comparing a mapping with itself yields the empty report in either
mode, and when both input files parse to identical ParameterSets the
pipeline never writes the output file and prints "No differences found." -/
theorem compare_self_empty_and_pipeline :
    (∀ (A : ParamDict) (mode : Bool), compare_params A A mode = []) ∧
    (∀ (file1 file2 : List String) (output_file : String) (common_only : Bool),
      parse_params file1 = parse_params file2 →
        main file1 file2 output_file common_only
          = { outputFile := none, stdout := "No differences found." }) := by
  have h1 : ∀ (A : ParamDict) (mode : Bool), compare_params A A mode = [] := by
    intro A mode
    simp only [compare_params]
    rw [List.filterMap_eq_nil_iff]
    intro a _
    simp
  refine ⟨h1, ?_⟩
  intro f1 f2 out co hpp
  simp [main, hpp, h1]

/-- C9: every record of `compare_params` has two distinct value strings; in
particular its key is present in at least one of the two mappings, so the
absence sentinel never fills both positions. -/
theorem compare_record_values_differ (params1 params2 : ParamDict) (mode : Bool)
    (k v1 v2 : String) (h : (k, v1, v2) ∈ compare_params params1 params2 mode) :
    v1 ≠ v2 ∧ (k ∈ dkeys params1 ∨ k ∈ dkeys params2) := by
  rw [mem_compare_params] at h
  obtain ⟨hk, h1, h2, hne⟩ := h
  rw [mem_keysToCompare] at hk
  refine ⟨hne, ?_⟩
  cases mode with
  | false => simpa using hk
  | true =>
    have hk2 : k ∈ dkeys params1 ∧ k ∈ dkeys params2 := by simpa using hk
    exact Or.inl hk2.1

/-- Witness for C9 at mappings that bind K to different values. -/
theorem compare_record_values_differ_witness :
    ("1" : String) ≠ "2" ∧
      ("K" ∈ dkeys [("K", "1")] ∨ "K" ∈ dkeys [("K", "2")]) :=
  compare_record_values_differ [("K", "1")] [("K", "2")] true "K" "1" "2" (by decide)

/-- C10: in common-only mode every record has its key in both mappings and
carries exactly the two mapped values: the lookup result is independent of
the default, so the absence sentinel is never substituted in this mode. -/
theorem commonOnly_record_from_both (params1 params2 : ParamDict) (k v1 v2 : String)
    (h : (k, v1, v2) ∈ compare_params params1 params2 true) :
    k ∈ dkeys params1 ∧ k ∈ dkeys params2 ∧
      (∀ s, dget params1 k s = v1) ∧ (∀ s, dget params2 k s = v2) := by
  rw [mem_compare_params] at h
  obtain ⟨hk, h1, h2, hne⟩ := h
  rw [mem_keysToCompare] at hk
  have hk2 : k ∈ dkeys params1 ∧ k ∈ dkeys params2 := by simpa using hk
  refine ⟨hk2.1, hk2.2, ?_, ?_⟩
  · intro s
    rw [h1]
    exact dget_of_mem_dkeys hk2.1 s "N/A"
  · intro s
    rw [h2]
    exact dget_of_mem_dkeys hk2.2 s "N/A"

/-- Witness for C10 at mappings that bind K to different values. -/
theorem commonOnly_record_from_both_witness :
    "K" ∈ dkeys [("K", "1")] ∧ "K" ∈ dkeys [("K", "2")] ∧
      (∀ s, dget [("K", "1")] "K" s = "1") ∧ (∀ s, dget [("K", "2")] "K" s = "2") :=
  commonOnly_record_from_both [("K", "1")] [("K", "2")] "K" "1" "2" (by decide)

end PX4ParamsDiff
